import Mathlib

/-!
Verification of the HoopsLabeler frame-capture-and-label workflow.

The definitions below are a shallow embedding of the TypeScript source
(`src/App.tsx` and the variant in `src/unnamed/part_001`): the output
directory is an explicit list of entries, the asynchronous file writes are
modelled by a failure oracle (which write operations throw), and each React
handler becomes a pure state-transition function on an explicit session
state.  JS numbers that hold playback times and fps values are modelled as
rationals; `Number.prototype.toFixed` and `Math.round` round to the nearest
unit with ties toward positive infinity, which is `round` on the rationals.
JS regexes operate on UTF-16 code units; for characters beyond the basic
multilingual plane the source would emit one replacement per surrogate unit
while this model works per Unicode character, a distinction none of the
verified properties depends on.
-/

set_option maxRecDepth 8000

attribute [local semireducible] List.mergeSort List.merge

namespace HoopsLabeler

/-- The two first-class labels of the tool (`'ball_in' | 'ball_out'`). -/
inductive Label
  | ball_in
  | ball_out
deriving DecidableEq

/-- The literal string written to a label file (`writable.write(label)`). -/
def Label.text : Label → String
  | .ball_in => "ball_in"
  | .ball_out => "ball_out"

/-- ASCII model of `String.prototype.toUpperCase` as used on the labels. -/
def upperStr (s : String) : String :=
  ⟨s.data.map Char.toUpper⟩

/-- ASCII model of `name.toLowerCase()` applied before extension checks. -/
def lowerChars (s : String) : List Char :=
  s.data.map Char.toLower

/-- Model of `s.trim()`: drop whitespace from both ends. -/
def trimStr (s : String) : String :=
  ⟨((s.data.dropWhile Char.isWhitespace).reverse.dropWhile Char.isWhitespace).reverse⟩

/-- A toast notification: message and whether it is the error variant. -/
structure Toast where
  message : String
  isError : Bool
deriving DecidableEq

/-- One entry of a directory listing, as produced by iterating
`dirHandle.values()`: a name, its kind (`file` or `directory`), and, for
files, the bytes/text the file currently holds. -/
structure DirEntry where
  name : String
  isFile : Bool
  content : String
deriving DecidableEq

/-- A directory's contents. -/
abbrev FS := List DirEntry

/-- Read a file's contents by name (`getFileHandle(name)` + `getFile()` +
`text()`); `none` when no file of that name exists. -/
def FS.get : FS → String → Option String
  | [], _ => none
  | e :: es, n => if e.name = n then (if e.isFile then some e.content else none) else FS.get es n

/-- `getFileHandle(name, create) / createWritable / write / close`:
create the file if absent, fully overwrite its contents otherwise. -/
def FS.set : FS → String → String → FS
  | [], n, c => [⟨n, true, c⟩]
  | e :: es, n, c => if e.name = n then ⟨n, true, c⟩ :: es else e :: FS.set es n c

/-- One `getFileHandle / createWritable / write / close` sequence.  The
oracle `fail` says which target names make the sequence throw; a writable
stream commits only on `close`, so a failed sequence leaves the previous
contents in place. -/
def writeFile (fail : String → Bool) (fs : FS) (n c : String) : Except Unit FS :=
  if fail n then Except.error () else Except.ok (FS.set fs n c)

/-! ### The locale comparator

`scanForVideos`/`scanForImages` sort with `a.name.localeCompare(b.name)`.
`localeCompare` uses the host's locale-aware collation, not code-unit
order.  The model below is the ASCII fragment of the default (root/en)
collation: punctuation collates before digits, digits before letters,
letters compare case-insensitively at the primary level, and case (lower
before upper) only breaks primary ties; for example `'a'.localeCompare('B')`
is negative although `'B' < 'a'` in code-unit order. -/

/-- Primary collation weight of an ASCII character. -/
def lcPrimary (c : Char) : Nat :=
  if c.isAlpha then 1000 + c.toLower.toNat
  else if c.isDigit then 500 + c.toNat
  else 1 + c.toNat

/-- Tertiary (case) collation weight: lowercase before uppercase. -/
def lcTertiary (c : Char) : Nat :=
  if c.isUpper then 2 else 1

/-- Collation key of a string: primary weights, then case weights, then raw
code points, with `0` separators (every weight is positive, so a shorter
string that is a prefix of a longer one collates first). -/
def localeKey (s : String) : List Nat :=
  s.data.map lcPrimary ++ 0 :: s.data.map lcTertiary ++ 0 :: s.data.map Char.toNat

/-- Lexicographic comparison of weight lists. -/
def listLexLe : List Nat → List Nat → Bool
  | [], _ => true
  | _ :: _, [] => false
  | a :: as, b :: bs =>
    if a < b then true else if b < a then false else listLexLe as bs

/-- `a.localeCompare(b) <= 0`: the ascending sort comparator. -/
def localeLe (a b : String) : Bool :=
  listLexLe (localeKey a) (localeKey b)

/-- `b.localeCompare(a) <= 0`: the descending sort comparator used for the
saved-output list. -/
def localeGe (a b : String) : Bool :=
  listLexLe (localeKey b) (localeKey a)

/-- `name.toLowerCase()` ends with `.mp4`, `.mov`, `.webm` or `.mkv`. -/
def hasVideoExt (n : String) : Bool :=
  let l := lowerChars n
  ".mp4".data.isSuffixOf l || ".mov".data.isSuffixOf l ||
    ".webm".data.isSuffixOf l || ".mkv".data.isSuffixOf l

/-- `name.toLowerCase()` ends with `.jpg` or `.png`. -/
def hasImageExt (n : String) : Bool :=
  let l := lowerChars n
  ".jpg".data.isSuffixOf l || ".png".data.isSuffixOf l

/-- `scanForVideos`: keep the file entries with a video extension and sort
ascending with the `localeCompare` comparator (JS `sort` is stable, as is
`mergeSort`). -/
def scanForVideos (entries : List DirEntry) : List String :=
  ((entries.filter fun e => e.isFile && hasVideoExt e.name).map DirEntry.name).mergeSort localeLe

/-- `scanForImages`: keep the file entries with an image extension and sort
descending with the `localeCompare` comparator. -/
def scanForImages (entries : List DirEntry) : List String :=
  ((entries.filter fun e => e.isFile && hasImageExt e.name).map DirEntry.name).mergeSort localeGe

/-! ### Filename derivation -/

/-- A character the regex `\.[^/.]+$` allows inside the matched extension. -/
def isExtChar (c : Char) : Bool :=
  !(c = '.' || c = '/')

/-- Helper on the reversed character list: scan extension characters until
the dot that starts the extension; abort on a second dot missing, or on a
slash. -/
def extRestRev : List Char → Option (List Char)
  | [] => none
  | c :: rest => if c = '.' then some rest else if c = '/' then none else extRestRev rest

/-- On the reversed character list: the regex `\.[^/.]+$` needs at least one
extension character before the dot. -/
def extSplitRev : List Char → Option (List Char)
  | [] => none
  | c :: rest => if c = '.' || c = '/' then none else extRestRev rest

/-- `name.replace(/\.[^/.]+$/, "")`: strip a final dot-extension when the
part after the last dot is nonempty and free of dots and slashes. -/
def stripExtChars (s : List Char) : List Char :=
  match extSplitRev s.reverse with
  | some r => r.reverse
  | none => s

/-- One step of `replace(/[^a-z0-9]/gi, '_')`: keep ASCII alphanumerics,
replace anything else by an underscore. -/
def replUnsafe (c : Char) : Char :=
  if c.isAlpha || c.isDigit then c else '_'

/-- `safeVidName`: extension stripped, then every character outside
`[a-zA-Z0-9]` replaced by `'_'`. -/
def sanitizeVideoName (name : String) : String :=
  ⟨(stripExtChars name.data).map replUnsafe⟩

/-- Three-digit zero-padded rendering of a value below 1000. -/
def pad3 (m : Nat) : String :=
  if m < 10 then "00" ++ Nat.repr m else if m < 100 then "0" ++ Nat.repr m else Nat.repr m

/-- Decimal rendering of a signed count of thousandths, as
`Number.prototype.toFixed(3)` renders the value it rounded to. -/
def fixed3 (n : ℤ) : String :=
  (if n < 0 then "-" else "") ++ Nat.repr (n.natAbs / 1000) ++ "." ++ pad3 (n.natAbs % 1000)

/-- The number of thousandths kept by `video.currentTime.toFixed(3)`:
`toFixed` rounds to the nearest representable value, ties away from zero,
which on nonnegative times is `round`. -/
def timestampMillis (t : ℚ) : ℤ :=
  round (t * 1000)

/-- `timestamp = video.currentTime.toFixed(3)`. -/
def timestampStr (t : ℚ) : String :=
  fixed3 (timestampMillis t)

/-- `frameNum = Math.round(video.currentTime * fps)` (`Math.round` rounds
half toward positive infinity, as does `round`). -/
def frameNumber (t fps : ℚ) : ℤ :=
  round (t * fps)

/-- `baseFilename`: `safeVidName + "_frame" + frameNum + "_" + timestamp + "s"`. -/
def captureBase (v : String) (t fps : ℚ) : String :=
  v ++ "_frame" ++ toString (frameNumber t fps) ++ "_" ++ timestampStr t ++ "s"

/-- `imgFilename = baseFilename + ".jpg"`. -/
def imgFilename (v : String) (t fps : ℚ) : String :=
  captureBase v t fps ++ ".jpg"

/-- `txtFilename = baseFilename + ".txt"`. -/
def txtFilename (v : String) (t fps : ℚ) : String :=
  captureBase v t fps ++ ".txt"

/-! ### Session state and the handlers -/

/-- The item held by the edit modal (`editingItem`): the image's filename,
the paired label file's name (standing for `txtHandle`), and the label text
on display.  The object URL of the preview is not part of the verified
state. -/
structure EditingItem where
  filename : String
  txtName : String
  currentLabel : String
deriving DecidableEq

/-- The session state the workflow touches: whether a video (and the canvas)
is available, the two chosen directories and the lists derived from them,
the playback position and fps, the paused flag, the current toast, and the
edit-modal state. -/
structure AppState where
  videoLoaded : Bool
  sourceDir : Option (List DirEntry)
  saveDir : Option FS
  currentVideoName : String
  currentTime : ℚ
  fps : ℚ
  paused : Bool
  videoList : List String
  savedFileList : List String
  toast : Option Toast
  editing : Option EditingItem
deriving DecidableEq

/-- `captureAndSave(label)`.  `ctxOk` is whether `canvas.getContext('2d')`
returned a context; `blob` is the value handed to the `toBlob` callback
(`none` models a failed encode); `fail` says which file writes throw. -/
def captureAndSave (fail : String → Bool) (ctxOk : Bool) (blob : Option String)
    (label : Label) (st : AppState) : AppState :=
  match st.saveDir with
  | none => { st with toast := some ⟨"Select a Save Folder first!", true⟩ }
  | some dir =>
    if st.videoLoaded = false then st
    else
      let st1 := { st with paused := true }
      if ctxOk then
        match blob with
        | none => st1
        | some b =>
          let v := sanitizeVideoName st.currentVideoName
          let img := imgFilename v st.currentTime st.fps
          let txt := txtFilename v st.currentTime st.fps
          match writeFile fail dir img b with
          | Except.error _ => { st1 with toast := some ⟨"Write failed. Check permissions.", true⟩ }
          | Except.ok d1 =>
            match writeFile fail d1 txt label.text with
            | Except.error _ =>
              { st1 with saveDir := some d1,
                         toast := some ⟨"Write failed. Check permissions.", true⟩ }
            | Except.ok d2 =>
              { st1 with saveDir := some d2,
                         toast := some ⟨"Saved: " ++ upperStr label.text, false⟩,
                         savedFileList := scanForImages d2 }
      else st1

/-- Outcome of `window.showDirectoryPicker()`: either a directory, or a
rejection carrying the error's `name` (`"AbortError"` on user cancel). -/
inductive PickerResult
  | picked (dir : List DirEntry)
  | err (name : String)

/-- `handleSourceDirSelect`. -/
def handleSourceDirSelect (supported : Bool) (res : PickerResult) (st : AppState) : AppState :=
  if supported then
    match res with
    | .picked dir =>
      let videos := scanForVideos dir
      { st with sourceDir := some dir, videoList := videos,
                toast := some ⟨"Found " ++ toString videos.length ++ " videos.", false⟩ }
    | .err n =>
      if n ≠ "AbortError" then { st with toast := some ⟨"Error accessing folder.", true⟩ }
      else st
  else { st with toast := some ⟨"Browser not supported.", true⟩ }

/-- `handleSaveDirSelect`.  The source's `err.message` check for cross-origin
frames is folded into the `SecurityError` name check. -/
def handleSaveDirSelect (supported : Bool) (res : PickerResult) (st : AppState) : AppState :=
  if supported then
    match res with
    | .picked dir =>
      { st with saveDir := some dir, savedFileList := scanForImages dir,
                toast := some ⟨"Save folder ready.", false⟩ }
    | .err n =>
      if n ≠ "AbortError" then
        if n = "SecurityError" then
          { st with toast := some ⟨"Security Block: Open app in a new tab.", true⟩ }
        else { st with toast := some ⟨"Error accessing folder.", true⟩ }
      else st
  else st

/-- `imgHandle.name.replace(/\.(jpg|png)$/i, '.txt')`. -/
def swapExtToTxt (n : String) : String :=
  if hasImageExt n then ⟨n.data.take (n.data.length - 4)⟩ ++ ".txt" else n

/-- `openEditModal(imgHandle)`.  `imgReadOk` is whether reading the image
for the preview URL succeeded; `fail` says whether creating a missing label
file throws (which the outer catch turns into a toast). -/
def openEditModal (fail : String → Bool) (imgReadOk : Bool) (st : AppState)
    (imgName : String) : AppState :=
  match st.saveDir with
  | none => st
  | some dir =>
    if imgReadOk = false then { st with toast := some ⟨"Could not open file details.", true⟩ }
    else
      let txtName := swapExtToTxt imgName
      match FS.get dir txtName with
      | some c => { st with editing := some ⟨imgName, txtName, trimStr c⟩ }
      | none =>
        if fail txtName then { st with toast := some ⟨"Could not open file details.", true⟩ }
        else
          { st with saveDir := some (FS.set dir txtName ""),
                    editing := some ⟨imgName, txtName, trimStr "No Label"⟩ }

/-- `closeEditModal` (URL revocation is not part of the verified state). -/
def closeEditModal (st : AppState) : AppState :=
  { st with editing := none }

/-- `updateLabel(newLabel)`: overwrite the open item's label file and show
the updated label (the delayed `closeEditModal` runs later). -/
def updateLabel (fail : String → Bool) (st : AppState) (newLabel : String) : AppState :=
  match st.editing with
  | none => st
  | some item =>
    match st.saveDir with
    | none => st
    | some dir =>
      match writeFile fail dir item.txtName newLabel with
      | Except.error _ => { st with toast := some ⟨"Failed to update label", true⟩ }
      | Except.ok d1 =>
        { st with saveDir := some d1,
                  editing := some { item with currentLabel := newLabel },
                  toast := some ⟨"Updated to: " ++ newLabel, false⟩ }

/-! ### Shared lemmas and concrete instances -/

/-- Reading back a name just written yields the written contents. -/
theorem FS.get_set_self (fs : FS) (n c : String) : FS.get (FS.set fs n c) n = some c := by
  induction fs with
  | nil => simp [FS.set, FS.get]
  | cons e es ih =>
    by_cases h : e.name = n
    · simp [FS.set, FS.get, h]
    · simp [FS.set, FS.get, h, ih]

/-- A session with a video loaded, an empty save directory chosen, and the
playhead at 12.345 s of `game1.mp4` at 30 fps. -/
def demoState : AppState :=
  ⟨true, none, some [], "game1.mp4", 12345 / 1000, 30, false, [], [], none, none⟩

/-- The same session before any save directory was chosen. -/
def noSaveState : AppState :=
  ⟨true, none, none, "game1.mp4", 12345 / 1000, 30, false, [], [], none, none⟩

/-! ### C10 -/

/-- C10: invoking `captureAndSave` while no save directory is selected (as
the `'1'`/`'2'` keyboard shortcuts can) only shows the error toast: no file
is written, the video is not paused or sampled, and no other session state
changes. -/
theorem captureWithoutSaveDirOnlyToasts (fail : String → Bool) (ctxOk : Bool)
    (blob : Option String) (label : Label) (st : AppState) (h : st.saveDir = none) :
    captureAndSave fail ctxOk blob label st
      = { st with toast := some ⟨"Select a Save Folder first!", true⟩ } := by
  unfold captureAndSave
  rw [h]

/-- Concrete instance of `captureWithoutSaveDirOnlyToasts`. -/
theorem captureWithoutSaveDirOnlyToasts_witness :
    captureAndSave (fun _ => false) true (some "IMG") Label.ball_in noSaveState
      = { noSaveState with toast := some ⟨"Select a Save Folder first!", true⟩ } :=
  captureWithoutSaveDirOnlyToasts (fun _ => false) true (some "IMG") Label.ball_in noSaveState rfl

/-! ### C3 -/

/-- C3 counterexample: when the encoder hands the callback a null blob, the
capture writes neither file but also produces no notification at all — the
resulting state only has the video paused and its toast is still `none`,
contradicting the claimed user-visible failure notification. -/
theorem nullBlobNoToast_counterexample :
    captureAndSave (fun _ => false) true none Label.ball_in demoState
      = { demoState with paused := true }
    ∧ (captureAndSave (fun _ => false) true none Label.ball_in demoState).toast = none :=
  ⟨rfl, rfl⟩

/-- C3 amended: if frame encoding yields no usable image bytes, the capture
operation writes neither the image file nor the label file and returns
silently — the only state change is that the video is paused; no
notification is surfaced. -/
theorem nullBlobSilentNoOp (fail : String → Bool) (label : Label) (st : AppState)
    (dir : FS) (hdir : st.saveDir = some dir) (hvid : st.videoLoaded = true) :
    captureAndSave fail true none label st = { st with paused := true } := by
  simp [captureAndSave, hdir, hvid]

/-- Concrete instance of `nullBlobSilentNoOp`. -/
theorem nullBlobSilentNoOp_witness :
    captureAndSave (fun _ => true) true none Label.ball_out demoState
      = { demoState with paused := true } :=
  nullBlobSilentNoOp (fun _ => true) Label.ball_out demoState [] rfl rfl

/-! ### C7 -/

/-- C7: for both folder-selection handlers, a picker rejection named
`AbortError` (user cancellation) leaves the whole state — in particular the
previously selected directory handles and the lists derived from them —
unchanged and shows no toast, while any other rejection changes nothing but
the error toast it shows. -/
theorem cancelledPickerTransparent (st : AppState) (n : String)
    (hn : n ≠ "AbortError") :
    handleSourceDirSelect true (PickerResult.err "AbortError") st = st
    ∧ handleSaveDirSelect true (PickerResult.err "AbortError") st = st
    ∧ handleSourceDirSelect true (PickerResult.err n) st
        = { st with toast := some ⟨"Error accessing folder.", true⟩ }
    ∧ (n ≠ "SecurityError" → handleSaveDirSelect true (PickerResult.err n) st
        = { st with toast := some ⟨"Error accessing folder.", true⟩ })
    ∧ handleSaveDirSelect true (PickerResult.err "SecurityError") st
        = { st with toast := some ⟨"Security Block: Open app in a new tab.", true⟩ } := by
  refine ⟨rfl, rfl, ?_, ?_, rfl⟩
  · simp [handleSourceDirSelect, hn]
  · intro hs
    simp [handleSaveDirSelect, hn, hs]

/-- Concrete instance of `cancelledPickerTransparent`. -/
theorem cancelledPickerTransparent_witness :
    handleSourceDirSelect true (PickerResult.err "AbortError") demoState = demoState
    ∧ handleSaveDirSelect true (PickerResult.err "AbortError") demoState = demoState
    ∧ handleSourceDirSelect true (PickerResult.err "NotAllowedError") demoState
        = { demoState with toast := some ⟨"Error accessing folder.", true⟩ }
    ∧ ("NotAllowedError" ≠ "SecurityError" →
        handleSaveDirSelect true (PickerResult.err "NotAllowedError") demoState
          = { demoState with toast := some ⟨"Error accessing folder.", true⟩ })
    ∧ handleSaveDirSelect true (PickerResult.err "SecurityError") demoState
        = { demoState with toast := some ⟨"Security Block: Open app in a new tab.", true⟩ } :=
  cancelledPickerTransparent demoState "NotAllowedError" (by decide)

/-! ### C8 -/

/-- C8: writing `ball_out` through `updateLabel` on the open item and then
reading the same file back through a fresh `openEditModal` (a fresh file
read, no cache) displays exactly the trimmed string `ball_out`. -/
theorem labelRoundTrip (fail : String → Bool) (st : AppState) (dir : FS)
    (imgName : String) (hdir : st.saveDir = some dir)
    (hf : fail (swapExtToTxt imgName) = false) :
    (openEditModal fail true
        (updateLabel fail (openEditModal fail true st imgName) "ball_out") imgName).editing
      = some ⟨imgName, swapExtToTxt imgName, "ball_out"⟩ := by
  have htrim : trimStr "ball_out" = "ball_out" := rfl
  cases hget : FS.get dir (swapExtToTxt imgName) with
  | some c =>
    simp [openEditModal, updateLabel, hdir, hget, writeFile, hf, FS.get_set_self, htrim]
  | none =>
    simp [openEditModal, updateLabel, hdir, hget, writeFile, hf, FS.get_set_self, htrim]

/-- Concrete instance of `labelRoundTrip`. -/
theorem labelRoundTrip_witness :
    (openEditModal (fun _ => false) true
        (updateLabel (fun _ => false)
          (openEditModal (fun _ => false) true demoState "shot.jpg") "ball_out") "shot.jpg").editing
      = some ⟨"shot.jpg", swapExtToTxt "shot.jpg", "ball_out"⟩ :=
  labelRoundTrip (fun _ => false) demoState [] "shot.jpg" rfl rfl

/-! ### C9 -/

/-- C9: opening the edit modal (from a state with no modal open) creates the
paired `.txt` label file when it is missing, so whenever the open succeeds
(an editing item is set) the image's label file resolves in the resulting
save directory; and when the label file already exists, its trimmed contents
become the displayed current label. -/
theorem openEditResolvesLabel (fail : String → Bool) (st : AppState) (dir : FS)
    (imgName : String) (hdir : st.saveDir = some dir) (hed : st.editing = none) :
    ((openEditModal fail true st imgName).editing.isSome = true →
      Option.map (fun d => (FS.get d (swapExtToTxt imgName)).isSome)
          (openEditModal fail true st imgName).saveDir = some true)
    ∧ (FS.get dir (swapExtToTxt imgName) ≠ none →
      (openEditModal fail true st imgName).editing
        = Option.map (fun c => EditingItem.mk imgName (swapExtToTxt imgName) (trimStr c))
            (FS.get dir (swapExtToTxt imgName))) := by
  cases hget : FS.get dir (swapExtToTxt imgName) with
  | some c =>
    constructor
    · intro _
      simp [openEditModal, hdir, hget]
    · intro _
      simp [openEditModal, hdir, hget]
  | none =>
    by_cases hf : fail (swapExtToTxt imgName) = true
    · constructor
      · intro h
        simp [openEditModal, hdir, hget, hf, hed] at h
      · intro h
        exact absurd rfl h
    · constructor
      · intro _
        simp [openEditModal, hdir, hget, hf, FS.get_set_self]
      · intro h
        exact absurd rfl h

/-- Concrete instance of `openEditResolvesLabel`. -/
theorem openEditResolvesLabel_witness :
    ((openEditModal (fun _ => false) true demoState "shot2.jpg").editing.isSome = true →
      Option.map (fun d => (FS.get d (swapExtToTxt "shot2.jpg")).isSome)
          (openEditModal (fun _ => false) true demoState "shot2.jpg").saveDir = some true)
    ∧ (FS.get [] (swapExtToTxt "shot2.jpg") ≠ none →
      (openEditModal (fun _ => false) true demoState "shot2.jpg").editing
        = Option.map (fun c => EditingItem.mk "shot2.jpg" (swapExtToTxt "shot2.jpg") (trimStr c))
            (FS.get [] (swapExtToTxt "shot2.jpg"))) :=
  openEditResolvesLabel (fun _ => false) demoState [] "shot2.jpg" rfl rfl

/-! ### C2 -/

/-- C2: the image write is applied to the save directory before the label
write: if the image write throws, the directory comes back unchanged (the
label write was never attempted, so no label file can exist for an image
whose write did not succeed); if only the label write throws, the directory
holds exactly the new image; if both succeed, the label write acts on the
directory that already holds the image. -/
theorem imageWritePrecedesLabelWrite (fail : String → Bool) (b : String)
    (label : Label) (st : AppState) (dir : FS)
    (hdir : st.saveDir = some dir) (hvid : st.videoLoaded = true) :
    (fail (imgFilename (sanitizeVideoName st.currentVideoName) st.currentTime st.fps) = true →
      (captureAndSave fail true (some b) label st).saveDir = some dir)
    ∧ (fail (imgFilename (sanitizeVideoName st.currentVideoName) st.currentTime st.fps) = false →
       fail (txtFilename (sanitizeVideoName st.currentVideoName) st.currentTime st.fps) = true →
      (captureAndSave fail true (some b) label st).saveDir
        = some (FS.set dir
            (imgFilename (sanitizeVideoName st.currentVideoName) st.currentTime st.fps) b))
    ∧ (fail (imgFilename (sanitizeVideoName st.currentVideoName) st.currentTime st.fps) = false →
       fail (txtFilename (sanitizeVideoName st.currentVideoName) st.currentTime st.fps) = false →
      (captureAndSave fail true (some b) label st).saveDir
        = some (FS.set (FS.set dir
            (imgFilename (sanitizeVideoName st.currentVideoName) st.currentTime st.fps) b)
            (txtFilename (sanitizeVideoName st.currentVideoName) st.currentTime st.fps)
            label.text)) := by
  refine ⟨?_, ?_, ?_⟩
  · intro h1
    simp [captureAndSave, hdir, hvid, writeFile, h1]
  · intro h1 h2
    simp [captureAndSave, hdir, hvid, writeFile, h1, h2]
  · intro h1 h2
    simp [captureAndSave, hdir, hvid, writeFile, h1, h2]

/-- Concrete instances of `imageWritePrecedesLabelWrite`: with every write
failing the directory is untouched; with no write failing both files land,
image first. -/
theorem imageWritePrecedesLabelWrite_witness :
    (captureAndSave (fun _ => true) true (some "IMG") Label.ball_in demoState).saveDir = some []
    ∧ (captureAndSave (fun _ => false) true (some "IMG") Label.ball_in demoState).saveDir
      = some (FS.set (FS.set []
          (imgFilename (sanitizeVideoName demoState.currentVideoName)
            demoState.currentTime demoState.fps) "IMG")
          (txtFilename (sanitizeVideoName demoState.currentVideoName)
            demoState.currentTime demoState.fps) Label.ball_in.text) :=
  ⟨(imageWritePrecedesLabelWrite (fun _ => true) "IMG" Label.ball_in demoState [] rfl rfl).1 rfl,
   (imageWritePrecedesLabelWrite (fun _ => false) "IMG" Label.ball_in demoState [] rfl rfl).2.2
     rfl rfl⟩

/-! ### C1 -/

/-- `"s" ++ ".jpg"` is the literal used when the base name is extended. -/
theorem s_append_jpg : "s" ++ ".jpg" = "s.jpg" := rfl

/-- `"s" ++ ".txt"` is the literal used when the base name is extended. -/
theorem s_append_txt : "s" ++ ".txt" = "s.txt" := rfl

/-- C1: a successful capture writes exactly the filename pair
`videoIdentity_frameN_Ts.jpg` and `videoIdentity_frameN_Ts.txt` where
`N = round(t * fps)` and `T` is the millisecond rendering of `t`; the pair
is a function of `(videoIdentity, t, fps)` alone, and for identity `game1`,
`t = 12.345 s`, `fps = 30` it is `game1_frame370_12.345s.jpg` /
`game1_frame370_12.345s.txt`. -/
theorem captureFilenamePair (fail : String → Bool) (b : String) (label : Label)
    (st : AppState) (dir : FS) (v : String) (t f : ℚ)
    (hdir : st.saveDir = some dir) (hvid : st.videoLoaded = true)
    (hfi : fail (imgFilename (sanitizeVideoName st.currentVideoName) st.currentTime st.fps)
      = false)
    (hft : fail (txtFilename (sanitizeVideoName st.currentVideoName) st.currentTime st.fps)
      = false) :
    (captureAndSave fail true (some b) label st).saveDir
      = some (FS.set (FS.set dir
          (imgFilename (sanitizeVideoName st.currentVideoName) st.currentTime st.fps) b)
          (txtFilename (sanitizeVideoName st.currentVideoName) st.currentTime st.fps)
          label.text)
    ∧ imgFilename v t f
      = v ++ "_frame" ++ toString (round (t * f)) ++ "_" ++ fixed3 (round (t * 1000)) ++ "s.jpg"
    ∧ txtFilename v t f
      = v ++ "_frame" ++ toString (round (t * f)) ++ "_" ++ fixed3 (round (t * 1000)) ++ "s.txt"
    ∧ imgFilename "game1" (12345 / 1000 : ℚ) 30 = "game1_frame370_12.345s.jpg"
    ∧ txtFilename "game1" (12345 / 1000 : ℚ) 30 = "game1_frame370_12.345s.txt" := by
  have h370 : frameNumber (12345 / 1000 : ℚ) 30 = 370 := by
    norm_num [frameNumber, round_eq]
  have h12345 : timestampMillis (12345 / 1000 : ℚ) = 12345 := by
    norm_num [timestampMillis, round_eq]
  refine ⟨?_, ?_, ?_, ?_, ?_⟩
  · simp [captureAndSave, hdir, hvid, writeFile, hfi, hft]
  · simp only [imgFilename, captureBase, timestampStr, timestampMillis, frameNumber,
      String.append_assoc, s_append_jpg]
  · simp only [txtFilename, captureBase, timestampStr, timestampMillis, frameNumber,
      String.append_assoc, s_append_txt]
  · simp only [imgFilename, captureBase, timestampStr, h370, h12345]
    decide
  · simp only [txtFilename, captureBase, timestampStr, h370, h12345]
    decide

/-- Concrete instance of `captureFilenamePair`. -/
theorem captureFilenamePair_witness :
    (captureAndSave (fun _ => false) true (some "IMG") Label.ball_out demoState).saveDir
      = some (FS.set (FS.set []
          (imgFilename (sanitizeVideoName demoState.currentVideoName)
            demoState.currentTime demoState.fps) "IMG")
          (txtFilename (sanitizeVideoName demoState.currentVideoName)
            demoState.currentTime demoState.fps)
          Label.ball_out.text)
    ∧ imgFilename "game1" (12345 / 1000 : ℚ) 30
      = "game1" ++ "_frame" ++ toString (round ((12345 / 1000 : ℚ) * 30)) ++ "_"
          ++ fixed3 (round ((12345 / 1000 : ℚ) * 1000)) ++ "s.jpg"
    ∧ txtFilename "game1" (12345 / 1000 : ℚ) 30
      = "game1" ++ "_frame" ++ toString (round ((12345 / 1000 : ℚ) * 30)) ++ "_"
          ++ fixed3 (round ((12345 / 1000 : ℚ) * 1000)) ++ "s.txt"
    ∧ imgFilename "game1" (12345 / 1000 : ℚ) 30 = "game1_frame370_12.345s.jpg"
    ∧ txtFilename "game1" (12345 / 1000 : ℚ) 30 = "game1_frame370_12.345s.txt" :=
  captureFilenamePair (fun _ => false) "IMG" Label.ball_out demoState [] "game1"
    (12345 / 1000 : ℚ) 30 rfl rfl rfl rfl

/-! ### C5 -/

/-- Scanning a run of extension characters on the reversed list finds the
dot that precedes them. -/
theorem extRestRev_append (l r : List Char) (h : ∀ d ∈ l, isExtChar d = true) :
    extRestRev (l ++ '.' :: r) = some r := by
  induction l with
  | nil => simp [extRestRev]
  | cons d ds ih =>
    have hd := h d (by simp)
    simp only [isExtChar, Bool.not_eq_true', Bool.or_eq_false_iff, decide_eq_false_iff_not] at hd
    simp only [List.cons_append, extRestRev, if_neg hd.1, if_neg hd.2]
    exact ih fun x hx => h x (by simp [hx])

/-- Stripping the extension from `base ++ "." ++ ext` leaves `base` when the
extension is nonempty and free of dots and slashes. -/
theorem stripExtChars_append (base ext : List Char) (hne : ext ≠ [])
    (hext : ∀ d ∈ ext, isExtChar d = true) :
    stripExtChars (base ++ '.' :: ext) = base := by
  cases hrev : ext.reverse with
  | nil => exact absurd (List.reverse_eq_nil_iff.mp hrev) hne
  | cons c0 cs =>
    have hc0 : isExtChar c0 = true := by
      apply hext
      rw [← List.mem_reverse, hrev]
      simp
    have hcs : ∀ d ∈ cs, isExtChar d = true := by
      intro d hd
      apply hext
      rw [← List.mem_reverse, hrev]
      simp [hd]
    simp only [isExtChar, Bool.not_eq_true', Bool.or_eq_false_iff,
      decide_eq_false_iff_not] at hc0
    have hrw : (base ++ '.' :: ext).reverse = c0 :: (cs ++ '.' :: base.reverse) := by
      rw [List.reverse_append]
      simp [hrev]
    rw [stripExtChars, hrw]
    simp only [extSplitRev, decide_eq_true_eq]
    rw [extRestRev_append cs base.reverse hcs]
    simp [hc0.1, hc0.2]

/-- C5: the sanitized video identity consists only of ASCII alphanumerics
and underscores; and on a name of the form `base.ext` with a nonempty final
extension free of dots and slashes, it is exactly `base` with every
non-alphanumeric character replaced by an underscore. -/
theorem sanitizedNameShape (name : String) (c : Char)
    (hc : c ∈ (sanitizeVideoName name).data)
    (base ext : List Char) (hne : ext ≠ [])
    (hext : ∀ d ∈ ext, isExtChar d = true) :
    (c.isAlpha = true ∨ c.isDigit = true ∨ c = '_')
    ∧ sanitizeVideoName ⟨base ++ '.' :: ext⟩ = ⟨base.map replUnsafe⟩ := by
  constructor
  · simp only [sanitizeVideoName, List.mem_map] at hc
    obtain ⟨d, _, hcd⟩ := hc
    rw [← hcd, replUnsafe]
    by_cases hd : (d.isAlpha || d.isDigit) = true
    · rw [if_pos hd]
      rcases Bool.or_eq_true_iff.mp hd with h | h
      · exact Or.inl h
      · exact Or.inr (Or.inl h)
    · rw [if_neg hd]
      exact Or.inr (Or.inr rfl)
  · rw [sanitizeVideoName]
    show String.mk ((stripExtChars (base ++ '.' :: ext)).map replUnsafe) = _
    rw [stripExtChars_append base ext hne hext]

/-- Concrete instance of `sanitizedNameShape`. -/
theorem sanitizedNameShape_witness :
    (Char.isAlpha 'g' = true ∨ Char.isDigit 'g' = true ∨ 'g' = '_')
    ∧ sanitizeVideoName ⟨"game 1".data ++ '.' :: "mp4".data⟩ = ⟨"game 1".data.map replUnsafe⟩ :=
  sanitizedNameShape "game 1.mp4" 'g' (by decide) "game 1".data "mp4".data (by decide)
    (by decide)

/-! ### C4 -/

/-- Modelled from the spec: `timestampSeconds` "truncated to millisecond
precision", the value obtained from `t` by dropping — not rounding —
everything beyond the third decimal digit, i.e. flooring `t * 1000`. -/
def truncTimestampMillis (t : ℚ) : ℤ :=
  ⌊t * 1000⌋

/-- Modelled from the spec: the truncated millisecond rendering of `t`. -/
def truncTimestampStr (t : ℚ) : String :=
  fixed3 (truncTimestampMillis t)

/-- C4 counterexample: at `t = 0.9999 s` the code renders `"1.000"` — the
filename is `v_frame30_1.000s.jpg` — while truncating `t` to millisecond
precision yields `"0.999"`, so the embedded timestamp is not the truncation
of `t`. -/
theorem timestampNotTruncated_counterexample :
    timestampStr (9999 / 10000 : ℚ) = "1.000"
    ∧ truncTimestampStr (9999 / 10000 : ℚ) = "0.999"
    ∧ timestampStr (9999 / 10000 : ℚ) ≠ truncTimestampStr (9999 / 10000 : ℚ)
    ∧ imgFilename "v" (9999 / 10000 : ℚ) 30 = "v_frame30_1.000s.jpg" := by
  have h1 : timestampMillis (9999 / 10000 : ℚ) = 1000 := by
    norm_num [timestampMillis, round_eq]
  have h2 : truncTimestampMillis (9999 / 10000 : ℚ) = 999 := by
    norm_num [truncTimestampMillis]
  have h3 : frameNumber (9999 / 10000 : ℚ) 30 = 30 := by
    norm_num [frameNumber, round_eq]
  refine ⟨?_, ?_, ?_, ?_⟩
  · simp only [timestampStr, h1]
    decide
  · simp only [truncTimestampStr, h2]
    decide
  · simp only [timestampStr, truncTimestampStr, h1, h2]
    decide
  · simp only [imgFilename, captureBase, timestampStr, h1, h3]
    decide

/-- C4 amended: the timestamp component embedded in the filenames is `t`
rounded — not truncated — to the nearest millisecond (`toFixed` semantics):
it differs from `t` by at most half a millisecond, and a playback time that
is an exact count `n` of milliseconds renders exactly as `n` thousandths. -/
theorem timestampRoundsToNearest (t s : ℚ) (n : ℤ) (hn : s = (n : ℚ) / 1000) :
    |((timestampMillis t : ℚ)) / 1000 - t| ≤ 1 / 2000
    ∧ timestampMillis s = n
    ∧ timestampStr s = fixed3 n := by
  have hs : timestampMillis s = n := by
    rw [timestampMillis, hn, div_mul_cancel₀, round_intCast]
    norm_num
  refine ⟨?_, hs, ?_⟩
  · have h := abs_sub_round (t * 1000)
    have e : ((timestampMillis t : ℚ)) / 1000 - t = -((t * 1000 - round (t * 1000)) / 1000) := by
      rw [timestampMillis]
      ring
    rw [e, abs_neg, abs_div, abs_of_pos (show (0 : ℚ) < 1000 by norm_num)]
    calc |t * 1000 - (round (t * 1000) : ℚ)| / 1000
        ≤ (1 / 2) / 1000 := (div_le_div_iff_of_pos_right (by norm_num)).mpr h
      _ = 1 / 2000 := by norm_num
  · rw [timestampStr, hs]

/-- Concrete instance of `timestampRoundsToNearest`. -/
theorem timestampRoundsToNearest_witness :
    |((timestampMillis (9999 / 10000 : ℚ) : ℚ)) / 1000 - (9999 / 10000 : ℚ)| ≤ 1 / 2000
    ∧ timestampMillis (12345 / 1000 : ℚ) = 12345
    ∧ timestampStr (12345 / 1000 : ℚ) = fixed3 12345 :=
  timestampRoundsToNearest (9999 / 10000 : ℚ) (12345 / 1000 : ℚ) 12345 (by norm_num)

/-! ### C6 -/

/-- `listLexLe` is total. -/
theorem listLexLe_total : ∀ x y : List Nat, (listLexLe x y || listLexLe y x) = true
  | [], _ => by simp [listLexLe]
  | _ :: _, [] => by simp [listLexLe]
  | a :: as, b :: bs => by
    rcases Nat.lt_trichotomy a b with h | h | h
    · simp [listLexLe, h]
    · subst h
      simpa [listLexLe] using listLexLe_total as bs
    · simp [listLexLe, h, Nat.lt_asymm h]

/-- `listLexLe` is transitive. -/
theorem listLexLe_trans : ∀ x y z : List Nat,
    listLexLe x y = true → listLexLe y z = true → listLexLe x z = true
  | [], _, _, _, _ => rfl
  | _ :: _, [], _, h1, _ => by simp [listLexLe] at h1
  | _ :: _, _ :: _, [], _, h2 => by simp [listLexLe] at h2
  | a :: as, b :: bs, c :: cs, h1, h2 => by
    rcases Nat.lt_trichotomy a b with hab | hab | hab
    · rcases Nat.lt_trichotomy b c with hbc | hbc | hbc
      · simp [listLexLe, hab.trans hbc]
      · subst hbc
        simp [listLexLe, hab]
      · simp [listLexLe, Nat.lt_asymm hbc, hbc] at h2
    · subst hab
      rcases Nat.lt_trichotomy a c with hac | hac | hac
      · simp [listLexLe, hac]
      · subst hac
        simp only [listLexLe, lt_self_iff_false, if_false] at h1 h2 ⊢
        exact listLexLe_trans as bs cs h1 h2
      · simp [listLexLe, Nat.lt_asymm hac, hac] at h2
    · simp [listLexLe, Nat.lt_asymm hab, hab] at h1

/-- The ascending comparator is transitive. -/
theorem localeLe_trans (x y z : String) (h1 : localeLe x y = true)
    (h2 : localeLe y z = true) : localeLe x z = true :=
  listLexLe_trans _ _ _ h1 h2

/-- The ascending comparator is total. -/
theorem localeLe_total (x y : String) : (localeLe x y || localeLe y x) = true :=
  listLexLe_total _ _

/-- The descending comparator is transitive. -/
theorem localeGe_trans (x y z : String) (h1 : localeGe x y = true)
    (h2 : localeGe y z = true) : localeGe x z = true :=
  listLexLe_trans _ _ _ h2 h1

/-- The descending comparator is total. -/
theorem localeGe_total (x y : String) : (localeGe x y || localeGe y x) = true :=
  listLexLe_total _ _

/-- C6 amended: each scan returns exactly the file entries whose lowercased
names carry the matching extensions; the video list is sorted ascending and
the image list descending by the locale-aware comparator the code hands to
`sort` (`localeCompare`), which agrees with lexicographic order only where
the locale comparisons do. -/
theorem scanFilterAndLocaleOrder (entries : List DirEntry) (a : String) :
    (a ∈ scanForVideos entries
      ↔ ∃ e, e ∈ entries ∧ e.isFile = true ∧ hasVideoExt e.name = true ∧ e.name = a)
    ∧ (a ∈ scanForImages entries
      ↔ ∃ e, e ∈ entries ∧ e.isFile = true ∧ hasImageExt e.name = true ∧ e.name = a)
    ∧ (scanForVideos entries).Pairwise (fun x y => localeLe x y = true)
    ∧ (scanForImages entries).Pairwise (fun x y => localeGe x y = true) := by
  refine ⟨?_, ?_, ?_, ?_⟩
  · simp [scanForVideos, List.mem_filter, Bool.and_eq_true, and_assoc]
  · simp [scanForImages, List.mem_filter, Bool.and_eq_true, and_assoc]
  · exact List.sorted_mergeSort localeLe_trans localeLe_total _
  · exact List.sorted_mergeSort localeGe_trans localeGe_total _

/-- Modelled from the spec: plain lexicographic (code-point) string order,
the order the spec means by "sorted lexicographically ... by name". -/
def lexLe (a b : String) : Bool :=
  listLexLe (a.data.map Char.toNat) (b.data.map Char.toNat)

/-- Modelled from the spec: the video scan "sorted lexicographically
ascending by name". -/
def specScanForVideos (entries : List DirEntry) : List String :=
  ((entries.filter fun e => e.isFile && hasVideoExt e.name).map DirEntry.name).mergeSort
    fun a b => lexLe a b

/-- Modelled from the spec: the output scan "sorted lexicographically
descending by name". -/
def specScanForImages (entries : List DirEntry) : List String :=
  ((entries.filter fun e => e.isFile && hasImageExt e.name).map DirEntry.name).mergeSort
    fun a b => lexLe b a

/-- C6 counterexample: on a folder holding `B.mp4` and `a.mp4` the video
scan returns `["a.mp4", "B.mp4"]` — under `localeCompare`, lowercase `a`
collates before uppercase `B` — and not the lexicographically ascending
`["B.mp4", "a.mp4"]`; the image scan likewise disagrees with lexicographic
descending order. -/
theorem scanNotLexicographic_counterexample :
    scanForVideos [⟨"B.mp4", true, ""⟩, ⟨"a.mp4", true, ""⟩] = ["a.mp4", "B.mp4"]
    ∧ specScanForVideos [⟨"B.mp4", true, ""⟩, ⟨"a.mp4", true, ""⟩] = ["B.mp4", "a.mp4"]
    ∧ scanForVideos [⟨"B.mp4", true, ""⟩, ⟨"a.mp4", true, ""⟩]
        ≠ specScanForVideos [⟨"B.mp4", true, ""⟩, ⟨"a.mp4", true, ""⟩]
    ∧ scanForImages [⟨"a.jpg", true, ""⟩, ⟨"B.jpg", true, ""⟩] = ["B.jpg", "a.jpg"]
    ∧ specScanForImages [⟨"a.jpg", true, ""⟩, ⟨"B.jpg", true, ""⟩] = ["a.jpg", "B.jpg"] := by
  decide

end HoopsLabeler
